import Mathlib

/-!
Shallow embedding of `utils/autoanchor.py` (YOLOv5-OBB auto-anchor utilities).

Conventions of the embedding:
* a box or anchor is a `(width, height)` pair of rationals (`Pair`); torch/numpy
  float arithmetic is modelled exactly over `ℚ`;
* a model's detection head (`Detect()` module `m`) carries `anchors`, a list of
  levels, each level a list of `(w, h)` pairs (tensor of shape
  `(levels, anchors_per_level, 2)`), and `stride`, one rational per level;
* `mean []` is the junk value `0` (torch would produce NaN); every theorem that
  relies on a mean carries a nonemptiness hypothesis;
* randomness (the genetic mutation masks) is abstracted as an explicit list of
  masks, one per generation, so a "fixed random source" is a fixed list.
-/

namespace AutoAnchor

abbrev Pair := ℚ × ℚ

/-- Arithmetic mean of a list of rationals (`tensor.mean()`); `0` on `[]`. -/
def mean (l : List ℚ) : ℚ := l.sum / (l.length : ℚ)

/-- Area `w * h` of a `(w, h)` pair (`prod(-1)` over the last dim). -/
def area (p : Pair) : ℚ := p.1 * p.2

/-- The ratio fit score of box `b` against anchor `a`, from
`r = wh[:, None] / k[None]; x = torch.min(r, 1 / r).min(2)[0]`:
elementwise `min(b/a, a/b)` on width and height, then the min of the two. -/
def ratioFit (b a : Pair) : ℚ :=
  min (min (b.1 / a.1) (a.1 / b.1)) (min (b.2 / a.2) (a.2 / b.2))

/-- Per-box best fit over the anchor list (`x.max(1)[0]`); folds `max` with
junk identity `0` (torch `max` errors on an empty anchor dim). -/
def bestFit (k : List Pair) (b : Pair) : ℚ :=
  (k.map (ratioFit b)).foldr max 0

/-- The `metric` closure of `check_anchors` (autoanchor.py lines 53-59), for a
flattened anchor list `k`: returns `(bpr, aat)` where
`bpr = (best > 1/thr).float().mean()` and
`aat = (x > 1/thr).float().sum(1).mean()`. -/
def metric (thr : ℚ) (ls_edges k : List Pair) : ℚ × ℚ :=
  let bpr := mean (ls_edges.map (fun b => if bestFit k b > 1 / thr then (1 : ℚ) else 0))
  let aat := mean (ls_edges.map (fun b =>
    (((k.filter (fun a => ratioFit b a > 1 / thr)).length : ℚ))))
  (bpr, aat)

/-- The 5-pixel filter `ls_edges0[(ls_edges0 >= 5.0).any(1)]`
(autoanchor.py lines 51 and 152): a pair is kept when at least one of its two
entries is `≥ 5.0`. -/
def filterEdges (ls : List Pair) : List Pair :=
  ls.filter (fun p => decide (5 ≤ p.1) || decide (5 ≤ p.2))

/-- The internal threshold rewrite `thr = 1 / thr` at the top of
`kmean_anchors` (autoanchor.py line 102). -/
def kmeanThrInternal (thr : ℚ) : ℚ := 1 / thr

/-- The `anchor_fitness` closure of `kmean_anchors` (autoanchor.py lines
110-113): `(best * (best > thr).float()).mean()` over the filtered boxes,
where `thr` here is already the internal (inverted) threshold. -/
def anchor_fitness (thrInternal : ℚ) (ls_edges k : List Pair) : ℚ :=
  mean (ls_edges.map (fun b =>
    bestFit k b * (if bestFit k b > thrInternal then (1 : ℚ) else 0)))

/-- The genetic fitness as the spec words it: mean over filtered boxes of the
best fit score, with boxes whose best fit falls at or below the threshold
contributing zero. -/
def fitness_spec (thrInternal : ℚ) (ls_edges k : List Pair) : ℚ :=
  mean (ls_edges.map (fun b =>
    if bestFit k b > thrInternal then bestFit k b else 0))

/-- One genetic mutation application `kg = (k.copy() * v).clip(min=2.0)`
(autoanchor.py line 190): elementwise product with the mask `v`, clipped from
below at `2.0` in both dimensions. -/
def mutate (k v : List Pair) : List Pair :=
  (k.zip v).map (fun p => (max (p.1.1 * p.2.1) 2, max (p.1.2 * p.2.2) 2))

/-- State of the genetic loop: current best fitness `f` and best anchors `k`. -/
structure EvolveState where
  f : ℚ
  k : List Pair
deriving DecidableEq, Repr

/-- One generation of the genetic loop (autoanchor.py lines 186-193): mutate
the current best, evaluate `anchor_fitness`, accept iff strictly better. -/
def evolveStep (ls_edges : List Pair) (thrInternal : ℚ)
    (st : EvolveState) (v : List Pair) : EvolveState :=
  let kg := mutate st.k v
  let fg := anchor_fitness thrInternal ls_edges kg
  if fg > st.f then ⟨fg, kg⟩ else st

/-- The whole genetic loop: fold the generations (one mutation mask each) over
the seeded state `⟨anchor_fitness k0, k0⟩` (autoanchor.py lines 182-196). -/
def evolve (ls_edges : List Pair) (thrInternal : ℚ)
    (k0 : List Pair) (vs : List (List Pair)) : EvolveState :=
  vs.foldl (evolveStep ls_edges thrInternal) ⟨anchor_fitness thrInternal ls_edges k0, k0⟩

/-- A `Detect()` head as `check_anchor_order` and `check_anchors` see it:
`anchors` of shape `(levels, anchors_per_level, 2)` and one stride per level. -/
structure DetectModule where
  anchors : List (List Pair)
  stride : List ℚ
deriving DecidableEq, Repr

/-- `torch.sign` on a rational: `1`, `-1` or `0`. -/
def signQ (x : ℚ) : ℚ := if 0 < x then 1 else if x < 0 then -1 else 0

/-- The flattened per-anchor areas `a = m.anchors.prod(-1).view(-1)`
(autoanchor.py line 22). -/
def flatAreas (m : DetectModule) : List ℚ :=
  m.anchors.flatten.map area

/-- The delta `a[-1] - a[0]` of the flattened per-anchor areas
(autoanchor.py line 23); junk `0 - 0` on an empty anchor tensor. -/
def flatAreaDelta (m : DetectModule) : ℚ :=
  (flatAreas m).getLastD 0 - (flatAreas m).headD 0

/-- The stride delta `m.stride[-1] - m.stride[0]` (autoanchor.py line 24);
junk `0 - 0` on an empty stride sequence. -/
def strideDelta (m : DetectModule) : ℚ :=
  m.stride.getLastD 0 - m.stride.headD 0

/-- `check_anchor_order` (autoanchor.py lines 20-27): if the sign of the
flattened-area delta differs from the sign of the stride delta, flip the level
dimension (`m.anchors.flip(0)`). Returns the updated module and whether a
reorder happened (the code logs "Reversing anchor order" in that case). -/
def check_anchor_order (m : DetectModule) : DetectModule × Bool :=
  if signQ (flatAreaDelta m) ≠ signQ (strideDelta m) then
    ({ m with anchors := m.anchors.reverse }, true)
  else (m, false)

/-- The claim's (and spec's) version of the order check, for comparison:
per-level mean anchor areas instead of flattened per-anchor areas. -/
def levelMeanAreas (m : DetectModule) : List ℚ :=
  m.anchors.map (fun lvl => mean (lvl.map area))

/-- The claim's area delta: mean area of the last level minus mean area of the
first level. -/
def levelMeanAreaDelta (m : DetectModule) : ℚ :=
  (levelMeanAreas m).getLastD 0 - (levelMeanAreas m).headD 0

/-- Pixel-space anchors `m.anchors.clone() * m.stride.view(-1, 1, 1)`
(autoanchor.py line 61): each level's anchors multiplied by its stride. -/
def scaleByStride (m : DetectModule) : List (List Pair) :=
  (m.anchors.zip m.stride).map (fun p => p.1.map (fun a => (a.1 * p.2, a.2 * p.2)))

/-- The result of `new_bpr = metric(anchors)[0]` at autoanchor.py line 73 when
`anchors` is still the unflattened `(levels, na, 2)` tensor (the optimizer
raised, so the reassignment at line 70 never happened). Models torch
broadcasting of `ls_edges[:, None]` (shape `(N, 1, 2)`) against `k[None]`
(shape `(1, levels, na, 2)`): compatible only when `N = levels`, `N = 1` or
`levels = 1`; otherwise torch raises a RuntimeError. In the compatible case
box `j` is paired with level `j` (after broadcasting), the anchor dimension is
reduced by `min`, the box/level dimension by `max`, and `bpr` is the mean over
the remaining shape `(1, 2)` of the threshold indicator. -/
def metric3_bpr (thr : ℚ) (ls_edges : List Pair) (anchors3 : List (List Pair)) :
    Except String ℚ :=
  let N := ls_edges.length
  let nl := anchors3.length
  if N = nl ∨ N = 1 ∨ nl = 1 then
    let R := max N nl
    let xd : Nat → Nat → ℚ := fun j d =>
      let b := if N = 1 then ls_edges.getD 0 (1, 1) else ls_edges.getD j (1, 1)
      let lvl := if nl = 1 then anchors3.getD 0 [] else anchors3.getD j []
      let bd := if d = 0 then b.1 else b.2
      ((lvl.map (fun a =>
        let ad := if d = 0 then a.1 else a.2
        min (bd / ad) (ad / bd))).foldr min 1)
    let best : Nat → ℚ := fun d => ((List.range R).map (fun j => xd j d)).foldr max 0
    Except.ok (((if best 0 > 1 / thr then (1 : ℚ) else 0) +
                (if best 1 > 1 / thr then (1 : ℚ) else 0)) / 2)
  else Except.error "RuntimeError: broadcast"

/-- Reshape a flat anchor list into the level structure of `template`
(`view_as(m.anchors)`). -/
def chunkLike (template : List (List Pair)) (flat : List Pair) : List (List Pair) :=
  match template with
  | [] => []
  | lvl :: rest => flat.take lvl.length :: chunkLike rest (flat.drop lvl.length)

/-- Write a flat pixel-space anchor list back into the module:
`m.anchors[:] = anchors.view_as(m.anchors) / m.stride.view(-1, 1, 1)`
(autoanchor.py line 76). -/
def writeAnchors (m : DetectModule) (newk : List Pair) : DetectModule :=
  let lvls := ((chunkLike m.anchors newk).zip m.stride).map
    (fun p => p.1.map (fun a => (a.1 / p.2, a.2 / p.2)))
  { m with anchors := lvls }

/-- The decision logic of `check_anchors` (autoanchor.py lines 61-80), after
the box extraction: `ls_edges` is the filtered, jitter-scaled box collection
and `optResult` abstracts the `kmean_anchors` call — `Except.ok k` when the
optimizer returns the flat anchor list `k`, `Except.error e` when it raises
and the handler at line 72 logs the exception. The returned Bool records
whether the optimizer was invoked; `Except.error` means `check_anchors` itself
raises (the broadcast failure of `metric(anchors)` on the unflattened tensor
after a caught optimizer exception). -/
def check_anchors_model (m : DetectModule) (thr : ℚ) (ls_edges : List Pair)
    (optResult : Except String (List Pair)) : Except String (DetectModule × Bool) :=
  let pix3 := scaleByStride m
  let bpr := (metric thr ls_edges pix3.flatten).1
  if bpr > 98 / 100 then Except.ok (m, false)
  else
    match optResult with
    | Except.ok newk =>
        let new_bpr := (metric thr ls_edges newk).1
        if new_bpr > bpr then
          Except.ok ((check_anchor_order (writeAnchors m newk)).1, true)
        else Except.ok (m, true)
    | Except.error _ =>
        match metric3_bpr thr ls_edges pix3 with
        | Except.error e => Except.error e
        | Except.ok new_bpr =>
            if new_bpr > bpr then
              Except.ok ((check_anchor_order m).1, true)
            else Except.ok (m, true)

/-- The ordering used by `print_results`: ascending area. -/
def areaLE (a b : Pair) : Prop := area a ≤ area b

instance : DecidableRel areaLE := fun a b => inferInstanceAs (Decidable (area a ≤ area b))

/-- The canonical output ordering `k = k[np.argsort(k.prod(1))]` of
`print_results` (autoanchor.py line 116): sort the anchors by area ascending. -/
def sortByArea (k : List Pair) : List Pair :=
  k.insertionSort areaLE

/-- The evolution phase of `kmean_anchors` (autoanchor.py lines 168-198): the
seed `k` coming out of kmeans is first canonicalized by `print_results`
(sorted by area), then evolved for one generation per mutation mask in `vs`,
and the final best is sorted again by the closing `print_results`. -/
def kmeanEvolvePhase (ls_edges : List Pair) (thrInternal : ℚ)
    (seed : List Pair) (vs : List (List Pair)) : List Pair :=
  sortByArea (evolve ls_edges thrInternal (sortByArea seed) vs).k

instance : IsTotal Pair areaLE := ⟨fun a b => le_total (area a) (area b)⟩

instance : IsTrans Pair areaLE := ⟨fun _ _ _ hab hbc => le_trans hab hbc⟩

/-- Concrete module for C4: level areas `[100, 1]` and `[50, 60]`, strides
`[8, 16]`. Per-level mean areas `[50.5, 55]` increase with the strides, but
the flattened per-anchor area delta `60 - 100` is negative. -/
def mC4 : DetectModule := ⟨[[(10, 10), (1, 1)], [(5, 10), (6, 10)]], [8, 16]⟩

/-- Concrete module for C5: level areas `[10, 1]` and `[2, 5]`, strides
`[8, 16]`. -/
def mC5 : DetectModule := ⟨[[(5, 2), (1, 1)], [(1, 2), (1, 5)]], [8, 16]⟩

/-- Concrete module for the C5 witness: one anchor per level. -/
def mC5w : DetectModule := ⟨[[(1, 1)], [(4, 4)]], [16, 8]⟩

/-- Concrete module for C1: three detection levels, one anchor each. -/
def mC1 : DetectModule := ⟨[[(1, 1)], [(1, 1)], [(1, 1)]], [8, 16, 32]⟩

/-- Concrete filtered box collection for C1: two boxes, so the `(2, 1, 2)`
box tensor does not broadcast against the `(1, 3, 1, 2)` anchor tensor. The
extreme aspect ratios keep the initial best-possible recall at `0`. -/
def lsC1 : List Pair := [(1000, 1), (1, 1000)]

/-- Concrete module for the C9 witness. Its pixel anchors are `(8,8)`,
`(32,32)`, `(96,96)`. -/
def mC9 : DetectModule := ⟨[[(1, 1)], [(2, 2)], [(3, 3)]], [8, 16, 32]⟩

/-- Concrete boxes for the C9 witness: exactly the pixel anchors of `mC9`,
so the best-possible recall is `1 > 0.98`. -/
def lsC9 : List Pair := [(8, 8), (32, 32), (96, 96)]

/-! ## Helper lemmas -/

/-- A mean of nonnegative rationals is nonnegative. -/
theorem mean_nonneg {l : List ℚ} (h : ∀ x ∈ l, 0 ≤ x) : 0 ≤ mean l :=
  div_nonneg (List.sum_nonneg h) (by positivity)

/-- A mean of a nonempty list of rationals each at most `1` is at most `1`. -/
theorem mean_le_one {l : List ℚ} (hne : l ≠ []) (h : ∀ x ∈ l, x ≤ 1) :
    mean l ≤ 1 := by
  have hlen : (0 : ℚ) < (l.length : ℚ) := by
    have := List.length_pos.mpr hne
    exact_mod_cast this
  rw [mean, div_le_one hlen]
  calc l.sum ≤ l.length • (1 : ℚ) := List.sum_le_card_nsmul l 1 h
    _ = (l.length : ℚ) := by simp

/-- A mean of a nonempty list of ones is `1`. -/
theorem mean_all_one {l : List ℚ} (hne : l ≠ []) (h : ∀ x ∈ l, x = 1) :
    mean l = 1 := by
  have hlen : ((l.length : ℚ)) ≠ 0 := by
    have := List.length_pos.mpr hne
    positivity
  have hsum : l.sum = (l.length : ℚ) := by
    rw [List.sum_eq_card_nsmul l 1 h]; simp
  rw [mean, hsum, div_self hlen]

/-- Every member of a list is at most the `max`-fold of that list. -/
theorem le_foldr_max {x : ℚ} {l : List ℚ} (hx : x ∈ l) (a : ℚ) :
    x ≤ l.foldr max a := by
  induction l with
  | nil => cases hx
  | cons y ys ih =>
    rcases List.mem_cons.mp hx with rfl | hmem
    · exact le_max_left _ _
    · exact le_trans (ih hmem) (le_max_right _ _)

/-! ## C2: the 5-pixel filter -/

/-- C2 counterexample: the claim says every pair with width or height below
`5.0` is excluded from the filtered collection, but the code keeps any pair
with at least one dimension `≥ 5.0`: the pair `(3, 10)` has width `3 < 5` yet
survives the filter. -/
theorem c2_filter_keeps_pair_below_width_threshold :
    ((3 : ℚ), (10 : ℚ)) ∈ filterEdges [((3 : ℚ), (10 : ℚ))] ∧ (3 : ℚ) < 5 := by
  decide

/-- C2 amended: a pair is excluded from the filtered collection exactly when
both its width and its height are below `5.0`; a pair of the unfiltered
collection with at least one dimension `≥ 5.0` is retained. -/
theorem c2_filter_excludes_iff_both_below (ls : List Pair) (p : Pair) :
    (p.1 < 5 → p.2 < 5 → p ∉ filterEdges ls) ∧
    (p ∈ ls → (5 ≤ p.1 ∨ 5 ≤ p.2) → p ∈ filterEdges ls) := by
  constructor
  · intro h1 h2 hmem
    rcases (List.mem_filter.mp hmem) with ⟨_, hpred⟩
    simp only [Bool.or_eq_true, decide_eq_true_eq] at hpred
    rcases hpred with h | h
    · exact absurd h (not_le.mpr h1)
    · exact absurd h (not_le.mpr h2)
  · intro hmem hge
    refine List.mem_filter.mpr ⟨hmem, ?_⟩
    simp only [Bool.or_eq_true, decide_eq_true_eq]
    exact hge

/-- C2 witness: `(7, 1)` (height below 5) is retained, `(1, 1)` is excluded. -/
theorem c2_filter_boundary_cases :
    ((7 : ℚ), (1 : ℚ)) ∈ filterEdges [((7 : ℚ), (1 : ℚ))] ∧
    ((1 : ℚ), (1 : ℚ)) ∉ filterEdges [((1 : ℚ), (1 : ℚ))] :=
  ⟨(c2_filter_excludes_iff_both_below [((7 : ℚ), (1 : ℚ))] ((7 : ℚ), (1 : ℚ))).2
      (by decide) (by norm_num),
   (c2_filter_excludes_iff_both_below [((1 : ℚ), (1 : ℚ))] ((1 : ℚ), (1 : ℚ))).1
      (by norm_num) (by norm_num)⟩

/-! ## C7: the genetic fitness formula -/

/-- C7: the genetic-refinement fitness of an anchor set `k` is the mean over
the filtered boxes of `best_fit_score × indicator(best_fit_score > thr)`, so
boxes whose best fit falls at or below the (internal) threshold contribute
zero; the configured default ratio `4.0` becomes the internal threshold
`1/4`. -/
theorem c7_fitness_formula (t : ℚ) (ls_edges k : List Pair) :
    anchor_fitness t ls_edges k = fitness_spec t ls_edges k ∧
    kmeanThrInternal 4 = 1 / 4 := by
  constructor
  · unfold anchor_fitness fitness_spec
    have hf : (fun b => bestFit k b * if bestFit k b > t then (1 : ℚ) else 0) =
        (fun b => if bestFit k b > t then bestFit k b else 0) := by
      funext b
      by_cases h : bestFit k b > t
      · simp [h]
      · simp [h]
    rw [hf]
  · rfl

/-! ## C8: the mutation clip -/

/-- C8: every mutated candidate `kg = (k * v).clip(min=2.0)` has both the
width and the height of every anchor at least `2.0`. -/
theorem c8_mutate_min_dimension (k v : List Pair) (p : Pair)
    (hp : p ∈ mutate k v) : 2 ≤ p.1 ∧ 2 ≤ p.2 := by
  rcases List.mem_map.mp hp with ⟨q, _, rfl⟩
  exact ⟨le_max_right _ _, le_max_right _ _⟩

/-- C8 witness: the single anchor of `mutate [(1,1)] [(1,1)]`, namely
`(2, 2)`, has both dimensions `≥ 2`. -/
theorem c8_mutate_concrete :
    2 ≤ ((2 : ℚ), (2 : ℚ)).1 ∧ 2 ≤ ((2 : ℚ), (2 : ℚ)).2 :=
  c8_mutate_min_dimension [((1 : ℚ), (1 : ℚ))] [((1 : ℚ), (1 : ℚ))]
    ((2 : ℚ), (2 : ℚ)) (by norm_num [mutate])

/-! ## C3: bounds of the fitness evaluation -/

/-- C3 counterexample: at `threshold_ratio = 1 ≥ 1` with the single box
`(8, 8)` exactly equal to the single anchor `(8, 8)`, the best fit score is
exactly `1`, but the recall indicator is the strict comparison
`best > 1/thr = 1`, so `best_possible_recall` is `0`, not `1.0` as the claim
states for every `threshold_ratio ≥ 1`. -/
theorem c3_bpr_not_one_at_thr_one :
    (metric 1 [((8 : ℚ), (8 : ℚ))] [((8 : ℚ), (8 : ℚ))]).1 ≠ 1 ∧
    ((8 : ℚ), (8 : ℚ)) ∈ [((8 : ℚ), (8 : ℚ))] ∧ (1 : ℚ) ≤ 1 := by
  refine ⟨?_, by norm_num, le_refl 1⟩
  norm_num [metric, mean, bestFit, ratioFit]

/-- C3 amended: for every nonempty box collection and every anchor set the
fitness evaluation returns `best_possible_recall ∈ [0, 1]` and
`anchors_above_threshold ≥ 0`; and whenever every (positive-dimension) box is
exactly equal to some anchor, `best_possible_recall = 1` for every
`threshold_ratio > 1` (at `threshold_ratio = 1` the strict comparison makes it
`0`). -/
theorem c3_metric_bounds_and_perfect_fit (thr : ℚ) (boxes k : List Pair)
    (hne : boxes ≠ []) :
    (0 ≤ (metric thr boxes k).1 ∧ (metric thr boxes k).1 ≤ 1 ∧
      0 ≤ (metric thr boxes k).2) ∧
    (1 < thr → (∀ b ∈ boxes, 0 < b.1 ∧ 0 < b.2 ∧ b ∈ k) →
      (metric thr boxes k).1 = 1) := by
  have hmapne : ∀ f : Pair → ℚ, boxes.map f ≠ [] := by
    intro f h
    exact hne (List.map_eq_nil_iff.mp h)
  constructor
  · refine ⟨?_, ?_, ?_⟩
    · apply mean_nonneg
      intro x hx
      rcases List.mem_map.mp hx with ⟨b, _, rfl⟩
      split <;> norm_num
    · apply mean_le_one (hmapne _)
      intro x hx
      rcases List.mem_map.mp hx with ⟨b, _, rfl⟩
      split <;> norm_num
    · apply mean_nonneg
      intro x hx
      rcases List.mem_map.mp hx with ⟨b, _, rfl⟩
      positivity
  · intro hthr hfit
    apply mean_all_one (hmapne _)
    intro x hx
    rcases List.mem_map.mp hx with ⟨b, hb, rfl⟩
    rcases hfit b hb with ⟨hw, hh, hbk⟩
    have hself : ratioFit b b = 1 := by
      unfold ratioFit
      rw [div_self (ne_of_gt hw), div_self (ne_of_gt hh)]
      norm_num
    have hbest : (1 : ℚ) ≤ bestFit k b := by
      have hmem : ratioFit b b ∈ k.map (ratioFit b) := List.mem_map_of_mem _ hbk
      have := le_foldr_max hmem 0
      rw [hself] at this
      exact this
    have hlt : 1 / thr < bestFit k b :=
      lt_of_lt_of_le ((div_lt_one (lt_trans one_pos hthr)).mpr hthr) hbest
    rw [if_pos hlt]

/-- C3 witness: with box collection `[(8, 8)]`, anchors `[(8, 8)]` and the
default `threshold_ratio = 4 > 1`, the best possible recall is exactly `1`. -/
theorem c3_perfect_fit_concrete :
    (metric 4 [((8 : ℚ), (8 : ℚ))] [((8 : ℚ), (8 : ℚ))]).1 = 1 :=
  (c3_metric_bounds_and_perfect_fit 4 [((8 : ℚ), (8 : ℚ))] [((8 : ℚ), (8 : ℚ))]
    (by norm_num)).2 (by norm_num) (by norm_num)

/-! ## C4: what check_anchor_order actually compares -/

/-- C4 counterexample: on `mC4` the per-level mean anchor areas
(`50.5` then `55`) increase together with the strides (`8` then `16`), so the
claim predicts no reorder; the code compares the flattened per-anchor areas
(last anchor area `60` minus first anchor area `100`, negative) and does
reorder. -/
theorem c4_mean_area_rule_disagrees :
    signQ (levelMeanAreaDelta mC4) = signQ (strideDelta mC4) ∧
    (check_anchor_order mC4).2 = true := by
  constructor
  · norm_num [signQ, levelMeanAreaDelta, levelMeanAreas, strideDelta, mC4, mean, area]
  · norm_num [check_anchor_order, signQ, flatAreaDelta, flatAreas, strideDelta, mC4, area]

/-- C4 amended: `check_anchor_order` compares the sign of (last minus first)
of the flattened per-anchor areas — not per-level means — against the sign of
the stride delta; it reverses the level ordering (leaving the strides and the
contents of each level untouched) exactly when the signs differ, and does
nothing when they agree. -/
theorem c4_flat_area_order_rule (m : DetectModule) :
    ((check_anchor_order m).2 = true ↔
      signQ (flatAreaDelta m) ≠ signQ (strideDelta m)) ∧
    (check_anchor_order m).1.stride = m.stride ∧
    ((check_anchor_order m).2 = true →
      (check_anchor_order m).1.anchors = m.anchors.reverse) ∧
    ((check_anchor_order m).2 = false → (check_anchor_order m).1 = m) := by
  unfold check_anchor_order
  by_cases h : signQ (flatAreaDelta m) ≠ signQ (strideDelta m)
  · simp [h]
  · simp [h]

/-- C4 witness: on `mC4` the flat-area rule fires, the level order is
reversed, and the strides are untouched. -/
theorem c4_flat_area_rule_concrete :
    (check_anchor_order mC4).1.anchors = mC4.anchors.reverse ∧
    (check_anchor_order mC4).1.stride = mC4.stride :=
  ⟨(c4_flat_area_order_rule mC4).2.2.1
      (by norm_num [check_anchor_order, signQ, flatAreaDelta, flatAreas,
        strideDelta, mC4, area]),
   (c4_flat_area_order_rule mC4).2.1⟩

/-! ## C5: idempotence of check_anchor_order -/

/-- C5 counterexample: applying `check_anchor_order` twice to `mC5` reorders
on the second application as well. The first call flips the levels because the
flattened area delta `5 - 10` is negative while the stride delta is positive;
after the flip the flattened area delta is `1 - 2`, still negative, so the
second call flips again. -/
theorem c5_double_apply_reorders_again :
    (check_anchor_order (check_anchor_order mC5).1).2 = true := by
  norm_num [check_anchor_order, signQ, flatAreaDelta, flatAreas, strideDelta,
    mC5, area]

/-- Flattening a reversed list of singleton lists reverses the flattening. -/
theorem flatten_reverse_of_singletons {α : Type} (L : List (List α))
    (h : ∀ lvl ∈ L, lvl.length = 1) :
    L.reverse.flatten = L.flatten.reverse := by
  induction L with
  | nil => rfl
  | cons l L ih =>
    have hl : l.length = 1 := h l (List.mem_cons_self l L)
    have hrest : ∀ lvl ∈ L, lvl.length = 1 := fun lvl hm => h lvl (List.mem_cons_of_mem _ hm)
    have hrev : l.reverse = l := by
      rcases List.length_eq_one.mp hl with ⟨a, rfl⟩
      rfl
    calc (l :: L).reverse.flatten
        = (L.reverse ++ [l]).flatten := by rw [List.reverse_cons]
      _ = L.reverse.flatten ++ l := by rw [List.flatten_append]; simp
      _ = L.flatten.reverse ++ l.reverse := by rw [ih hrest, hrev]
      _ = (l :: L).flatten.reverse := by rw [List.flatten_cons, List.reverse_append]

/-- The sign function maps negation to negation. -/
theorem signQ_neg (x : ℚ) : signQ (-x) = -signQ x := by
  unfold signQ
  rcases lt_trichotomy x 0 with h | h | h
  · rw [if_pos (by linarith : (0 : ℚ) < -x), if_neg (by linarith : ¬(0 : ℚ) < x),
      if_pos h]
    norm_num
  · subst h; norm_num
  · rw [if_neg (by linarith : ¬(0 : ℚ) < -x), if_pos (by linarith : -x < 0),
      if_pos h]

/-- The sign of a nonzero rational is `1` or `-1`. -/
theorem signQ_ne_zero {x : ℚ} (h : x ≠ 0) : signQ x = 1 ∨ signQ x = -1 := by
  unfold signQ
  rcases lt_trichotomy 0 x with hx | hx | hx
  · exact Or.inl (if_pos hx)
  · exact absurd hx.symm h
  · rw [if_neg (by linarith : ¬(0 : ℚ) < x), if_pos hx]
    exact Or.inr rfl

/-- After a flip of singleton levels, the flattened area delta negates. -/
theorem flatAreaDelta_reverse_of_singletons (m : DetectModule)
    (h : ∀ lvl ∈ m.anchors, lvl.length = 1) :
    flatAreaDelta { m with anchors := m.anchors.reverse } = -flatAreaDelta m := by
  have hflat : flatAreas { m with anchors := m.anchors.reverse } =
      (flatAreas m).reverse := by
    unfold flatAreas
    rw [flatten_reverse_of_singletons m.anchors h, List.map_reverse]
  unfold flatAreaDelta
  rw [hflat]
  rw [List.getLastD_eq_getLast?, List.getLastD_eq_getLast?,
    List.getLast?_reverse]
  have hhead : ∀ (l : List ℚ) (d : ℚ), l.headD d = (l.head?).getD d := by
    intro l d; cases l <;> rfl
  rw [hhead, hhead, List.head?_reverse]
  ring

/-- C5 amended: `check_anchor_order` applied twice never reorders on the
second application provided each level holds a single anchor and both the
flattened area delta and the stride delta are nonzero; with several anchors
per level (counterexample `mC5`) or vanishing deltas the second application
can reorder again. -/
theorem c5_idempotent_single_anchor_levels (m : DetectModule)
    (hsingle : ∀ lvl ∈ m.anchors, lvl.length = 1)
    (hda : flatAreaDelta m ≠ 0) (hds : strideDelta m ≠ 0) :
    (check_anchor_order (check_anchor_order m).1).2 = false := by
  by_cases h : signQ (flatAreaDelta m) ≠ signQ (strideDelta m)
  · have hfirst : (check_anchor_order m).1 = { m with anchors := m.anchors.reverse } := by
      unfold check_anchor_order
      rw [if_pos h]
    rw [hfirst]
    have hda2 : flatAreaDelta { m with anchors := m.anchors.reverse } =
        -flatAreaDelta m := flatAreaDelta_reverse_of_singletons m hsingle
    have hds2 : strideDelta { m with anchors := m.anchors.reverse } =
        strideDelta m := rfl
    have hsign : signQ (flatAreaDelta m) = -signQ (strideDelta m) := by
      rcases signQ_ne_zero hda with h1 | h1 <;> rcases signQ_ne_zero hds with h2 | h2
      · exact absurd (h1.trans h2.symm) h
      · rw [h1, h2]; norm_num
      · rw [h1, h2]
      · exact absurd (h1.trans h2.symm) h
    have hagree : signQ (flatAreaDelta { m with anchors := m.anchors.reverse }) =
        signQ (strideDelta { m with anchors := m.anchors.reverse }) := by
      rw [hda2, hds2, signQ_neg, hsign]
      ring
    unfold check_anchor_order
    rw [if_neg (by simpa using hagree)]
  · have hfirst : (check_anchor_order m).1 = m := by
      unfold check_anchor_order
      rw [if_neg h]
    rw [hfirst]
    unfold check_anchor_order
    rw [if_neg h]

/-- C5 witness: on `mC5w` (one anchor per level, inconsistent order) the first
application flips and the second application does not reorder. -/
theorem c5_idempotent_concrete :
    (check_anchor_order (check_anchor_order mC5w).1).2 = false :=
  c5_idempotent_single_anchor_levels mC5w
    (by
      intro lvl h
      simp only [mC5w, List.mem_cons, List.not_mem_nil, or_false] at h
      rcases h with rfl | rfl <;> rfl)
    (by norm_num [flatAreaDelta, flatAreas, mC5w, area])
    (by norm_num [strideDelta, mC5w])

/-! ## C6: the genetic loop is a strict-improvement hill climb -/

/-- One generation never decreases the best fitness. -/
theorem evolveStep_f_le (e : List Pair) (t : ℚ) (st : EvolveState) (v : List Pair) :
    st.f ≤ (evolveStep e t st v).f := by
  simp only [evolveStep]
  split
  · next h => exact le_of_lt h
  · exact le_refl _

/-- The fold of generations never decreases the fitness of its start state. -/
theorem foldl_evolveStep_f_le (e : List Pair) (t : ℚ) (vs : List (List Pair))
    (st : EvolveState) : st.f ≤ (vs.foldl (evolveStep e t) st).f := by
  induction vs generalizing st with
  | nil => exact le_refl _
  | cons v vs ih => exact le_trans (evolveStep_f_le e t st v) (ih _)

/-- Along the fold, the recorded best fitness is the fitness of the recorded
best anchors. -/
theorem foldl_evolveStep_f_eq (e : List Pair) (t : ℚ) (vs : List (List Pair))
    (st : EvolveState) (h : st.f = anchor_fitness t e st.k) :
    (vs.foldl (evolveStep e t) st).f =
      anchor_fitness t e (vs.foldl (evolveStep e t) st).k := by
  induction vs generalizing st with
  | nil => exact h
  | cons v vs ih =>
    apply ih
    simp only [evolveStep]
    split
    · rfl
    · exact h

/-- C6: for any fixed random source (the list of mutation masks `vs`), the
best fitness of the genetic loop never falls below the seed fitness, it tracks
the fitness of the current best anchors, it is non-decreasing from one
generation to the next (`evolve (vs ++ [v])` is one more generation), and a
mutated candidate replaces the current best exactly when its fitness is
strictly greater than the current best fitness. -/
theorem c6_evolve_monotone_strict_acceptance (ls_edges : List Pair) (t : ℚ)
    (k0 : List Pair) (vs : List (List Pair)) :
    anchor_fitness t ls_edges k0 ≤ (evolve ls_edges t k0 vs).f ∧
    (evolve ls_edges t k0 vs).f =
      anchor_fitness t ls_edges (evolve ls_edges t k0 vs).k ∧
    (∀ v, (evolve ls_edges t k0 vs).f ≤ (evolve ls_edges t k0 (vs ++ [v])).f) ∧
    (∀ v, evolveStep ls_edges t (evolve ls_edges t k0 vs) v ≠
        evolve ls_edges t k0 vs ↔
      (evolve ls_edges t k0 vs).f <
        anchor_fitness t ls_edges (mutate (evolve ls_edges t k0 vs).k v)) ∧
    (∀ v, (evolve ls_edges t k0 vs).f <
        anchor_fitness t ls_edges (mutate (evolve ls_edges t k0 vs).k v) →
      (evolveStep ls_edges t (evolve ls_edges t k0 vs) v).k =
        mutate (evolve ls_edges t k0 vs).k v) := by
  refine ⟨?_, ?_, ?_, ?_, ?_⟩
  · exact foldl_evolveStep_f_le ls_edges t vs _
  · exact foldl_evolveStep_f_eq ls_edges t vs _ rfl
  · intro v
    unfold evolve
    rw [List.foldl_append]
    exact evolveStep_f_le ls_edges t _ v
  · intro v
    constructor
    · intro hne
      by_contra hnot
      apply hne
      simp only [evolveStep]
      rw [if_neg hnot]
    · intro hlt heq
      have hf := congrArg EvolveState.f heq
      simp only [evolveStep] at hf
      rw [if_pos hlt] at hf
      exact absurd hf (ne_of_gt hlt)
  · intro v hlt
    simp only [evolveStep]
    rw [if_pos hlt]

/-- C6 witness: with one box `(8, 8)`, seed `[(4, 4)]` and the single mask
`[(2, 2)]`, the mutated candidate `[(8, 8)]` has fitness `1 > 1/2`, so the
first generation changes the state. -/
theorem c6_accepts_strict_improvement :
    evolveStep [((8 : ℚ), (8 : ℚ))] (1 / 4)
        (evolve [((8 : ℚ), (8 : ℚ))] (1 / 4) [((4 : ℚ), (4 : ℚ))] []) [((2 : ℚ), (2 : ℚ))] ≠
      evolve [((8 : ℚ), (8 : ℚ))] (1 / 4) [((4 : ℚ), (4 : ℚ))] [] :=
  ((c6_evolve_monotone_strict_acceptance [((8 : ℚ), (8 : ℚ))] (1 / 4)
      [((4 : ℚ), (4 : ℚ))] []).2.2.2.1 [((2 : ℚ), (2 : ℚ))]).mpr
    (by norm_num [evolve, anchor_fitness, mutate, bestFit, ratioFit, mean])

/-! ## C10: no improvement returns the sorted seed, unclipped -/

/-- Sorting by area is idempotent. -/
theorem sortByArea_idem (k : List Pair) :
    sortByArea (sortByArea k) = sortByArea k :=
  List.Sorted.insertionSort_eq (List.sorted_insertionSort areaLE k)

/-- If no candidate's fitness beats the start fitness, the fold keeps the
start state. -/
theorem foldl_evolveStep_no_accept (e : List Pair) (t : ℚ) (k0 : List Pair)
    (vs : List (List Pair))
    (h : ∀ v ∈ vs, anchor_fitness t e (mutate k0 v) ≤ anchor_fitness t e k0) :
    vs.foldl (evolveStep e t) ⟨anchor_fitness t e k0, k0⟩ =
      ⟨anchor_fitness t e k0, k0⟩ := by
  induction vs with
  | nil => rfl
  | cons v vs ih =>
    have hstep : evolveStep e t ⟨anchor_fitness t e k0, k0⟩ v =
        ⟨anchor_fitness t e k0, k0⟩ := by
      simp only [evolveStep]
      rw [if_neg (not_lt.mpr (h v (List.mem_cons_self v vs)))]
    rw [List.foldl_cons, hstep]
    exact ih (fun w hw => h w (List.mem_cons_of_mem _ hw))

/-- C10: when no generation's mutated candidate achieves fitness strictly
greater than the seed fitness, the evolution phase of `kmean_anchors` returns
the (area-sorted) k-means seed itself; in particular every seed anchor — the
seed is never clipped at `2.0` — is still present in the returned set, so the
returned set may contain dimensions below `2.0`. -/
theorem c10_no_improvement_returns_sorted_seed (ls_edges : List Pair) (t : ℚ)
    (seed : List Pair) (vs : List (List Pair))
    (h : ∀ v ∈ vs, anchor_fitness t ls_edges (mutate (sortByArea seed) v) ≤
      anchor_fitness t ls_edges (sortByArea seed)) :
    kmeanEvolvePhase ls_edges t seed vs = sortByArea seed ∧
    ∀ p ∈ seed, p ∈ kmeanEvolvePhase ls_edges t seed vs := by
  have hmain : kmeanEvolvePhase ls_edges t seed vs = sortByArea seed := by
    unfold kmeanEvolvePhase evolve
    rw [foldl_evolveStep_no_accept ls_edges t (sortByArea seed) vs h]
    exact sortByArea_idem seed
  refine ⟨hmain, fun p hp => ?_⟩
  rw [hmain]
  exact (List.mem_insertionSort areaLE).mpr hp

/-- C10 witness: seed `[(1, 1)]` (dimension below the `2.0` clip), one
generation whose candidate `[(2, 2)]` has fitness `1/2 ≤ 1`: the returned
anchor set is the seed itself and still contains a width `1 < 2`. -/
theorem c10_returns_subtwo_seed :
    kmeanEvolvePhase [((1 : ℚ), (1 : ℚ))] (1 / 4) [((1 : ℚ), (1 : ℚ))]
        [[((1 : ℚ), (1 : ℚ))]] = sortByArea [((1 : ℚ), (1 : ℚ))] ∧
    ((1 : ℚ), (1 : ℚ)) ∈ kmeanEvolvePhase [((1 : ℚ), (1 : ℚ))] (1 / 4)
        [((1 : ℚ), (1 : ℚ))] [[((1 : ℚ), (1 : ℚ))]] ∧
    ((1 : ℚ), (1 : ℚ)).1 < 2 :=
  have hc := c10_no_improvement_returns_sorted_seed [((1 : ℚ), (1 : ℚ))] (1 / 4)
    [((1 : ℚ), (1 : ℚ))] [[((1 : ℚ), (1 : ℚ))]]
    (by
      intro v hv
      simp only [List.mem_cons, List.not_mem_nil, or_false] at hv
      subst hv
      norm_num [sortByArea, List.insertionSort, List.orderedInsert,
        anchor_fitness, mutate, bestFit, ratioFit, mean])
  ⟨hc.1, hc.2 _ (by norm_num), by norm_num⟩

/-! ## C9: the good-fit branch of check_anchors -/

/-- C9: when the current anchors' best possible recall exceeds `0.98`,
`check_anchors` returns without invoking the optimizer (flag `false`) and the
module — anchor tensor and stride sequence — is returned completely
unchanged, whatever the optimizer would have done or raised. -/
theorem c9_good_fit_no_optimizer (m : DetectModule) (thr : ℚ)
    (ls_edges : List Pair) (optResult : Except String (List Pair))
    (h : (metric thr ls_edges (scaleByStride m).flatten).1 > 98 / 100) :
    check_anchors_model m thr ls_edges optResult = Except.ok (m, false) := by
  unfold check_anchors_model
  rw [if_pos h]

/-- C9 witness: the boxes of `lsC9` are exactly the pixel anchors of `mC9`,
so the best possible recall is `1 > 0.98` and `check_anchors` leaves the
module alone even when the optimizer oracle would raise. -/
theorem c9_good_fit_concrete :
    check_anchors_model mC9 4 lsC9 (Except.error "DataError") =
      Except.ok (mC9, false) :=
  c9_good_fit_no_optimizer mC9 4 lsC9 (Except.error "DataError")
    (by
      have h : (scaleByStride mC9).flatten =
          [((8 : ℚ), (8 : ℚ)), (32, 32), (96, 96)] := by
        norm_num [scaleByStride, mC9]
      rw [h]
      simp [metric, mean, bestFit, ratioFit, lsC9]
      norm_num)

/-! ## C1: the post-exception path of check_anchors -/

/-- C1 (code bug): on `mC1` (three detection levels) with the two filtered
boxes of `lsC1`, the initial best possible recall is `0 ≤ 0.98`, the optimizer
is invoked and raises (`DataError`), the handler logs — and then
`new_bpr = metric(anchors)[0]` is evaluated with `anchors` still the
unflattened `(3, 1, 2)` tensor, whose broadcast against the `(2, 1, 2)` box
tensor fails, so `check_anchors` itself raises instead of returning. -/
theorem c1_check_anchors_raises_after_optimizer_error :
    check_anchors_model mC1 4 lsC1 (Except.error "DataError") =
      Except.error "RuntimeError: broadcast" := by
  simp [check_anchors_model, metric, metric3_bpr, mean, bestFit, ratioFit,
    scaleByStride, mC1, lsC1]
  norm_num

end AutoAnchor
